import Mathlib

/-!
# Verification of the Blue-data-analytics ETL / risk-scoring pipeline

Shallow embedding of the repository's core data pipeline:

* `scripts/etl.py` (`BlueDataETL`): cleaning (`clean_data`), feature
  engineering (`_engineer_features`), min-max risk scoring
  (`_calculate_risk_score`) and grading (`_assign_grade`);
* `scripts/train.py` (`BlueDataML._assign_grade`): the divergent grade
  thresholds used when generating predictions;
* `backend/app.py` (`load_and_process_data`, `get_scheduling`): the
  weighted risk formula and the high-risk filter/sort/schedule;
* `backend/app_real.py` (`scheduling`, `train_models`): the disjoint
  weekly batching and the `> 100` training gate;
* `backend/utils/helpers/data_processor.py` (`DataProcessor.clean_data`,
  `get_high_risk_outlets`, `get_location_breakdown`);
* `backend/utils/helpers/model_trainer.py` (`ModelTrainer.prepare_features`).

Pandas cell values are modelled explicitly: a numeric cell is
`Option ℚ` (`none` = NaN / missing), a possibly-textual numeric column
uses `Val` (`Val.str` stands for text that does not parse as a number;
numeric text is modelled directly as `Val.num`), and float results of
divisions use `FVal`, which distinguishes finite values, the two IEEE
infinities, and NaN, with NaN-propagating arithmetic.
-/

/-- The A–D report grade, `etl.py` / `train.py` `Grade` column values. -/
inductive Grade where
  | A | B | C | D
deriving DecidableEq, Repr

/-- IEEE-style float value: finite rational, `+inf`, `-inf`, or NaN.
Used wherever the pandas code can produce non-finite floats
(divisions by zero, degenerate min-max normalisation). -/
inductive FVal where
  | fin (q : ℚ)
  | inf
  | neginf
  | nan
deriving DecidableEq, Repr

namespace FVal

/-- `true` exactly for a finite float value. -/
def isFinite : FVal → Bool
  | fin _ => true
  | _ => false

/-- IEEE division of two finite rationals: `x / 0` is `±inf` for `x ≠ 0`
and NaN for `0 / 0`; otherwise exact division. -/
def divQ (a b : ℚ) : FVal :=
  if b = 0 then
    if a = 0 then nan else if 0 < a then inf else neginf
  else fin (a / b)

/-- Division lifted to NaN-able cells (`none` = NaN): any NaN operand
yields NaN, as in pandas. -/
def divOpt (x y : Option ℚ) : FVal :=
  match x, y with
  | some a, some b => divQ a b
  | _, _ => nan

/-- Multiplication by a finite non-negative constant (the fixed risk
weights 0.4 / 0.6): NaN propagates, infinities keep their sign for a
positive constant. -/
def mulC (c : ℚ) : FVal → FVal
  | fin q => fin (c * q)
  | inf => if c = 0 then nan else if 0 < c then inf else neginf
  | neginf => if c = 0 then nan else if 0 < c then neginf else inf
  | nan => nan

/-- IEEE addition: NaN propagates; `inf + (-inf)` is NaN. -/
def add : FVal → FVal → FVal
  | nan, _ => nan
  | _, nan => nan
  | fin a, fin b => fin (a + b)
  | fin _, inf => inf
  | fin _, neginf => neginf
  | inf, fin _ => inf
  | neginf, fin _ => neginf
  | inf, inf => inf
  | neginf, neginf => neginf
  | inf, neginf => nan
  | neginf, inf => nan

end FVal

/-! ## Grade assignment

`etl.py` grades the min-max-normalised risk score (a 0–1 value) with
thresholds 0.25 / 0.5 / 0.75; `train.py` grades its own 0–1 risk score
with thresholds 0.08 / 0.2 / 0.55. -/

/-- `BlueDataETL._assign_grade.grade_assigner` (scripts/etl.py:218-226):
`score < 0.25 → A`, `< 0.5 → B`, `< 0.75 → C`, else `D`. -/
def assignGradeEtl (score : ℚ) : Grade :=
  if score < 1/4 then Grade.A
  else if score < 1/2 then Grade.B
  else if score < 3/4 then Grade.C
  else Grade.D

/-- `BlueDataML._assign_grade` (scripts/train.py:201-211):
`score < 0.08 → A`, `< 0.2 → B`, `< 0.55 → C`, else `D`. -/
def assignGradeTrain (score : ℚ) : Grade :=
  if score < 2/25 then Grade.A
  else if score < 1/5 then Grade.B
  else if score < 11/20 then Grade.C
  else Grade.D

/-- Grade bucketing as the spec words it (spec §4.3), on the 0–100
scale: `risk_score < 25 → A`, `< 50 → B`, `< 75 → C`, else `D`.
Stated from the spec for comparison with the source's graders. -/
def specGradeBucket (score : ℚ) : Grade :=
  if score < 25 then Grade.A
  else if score < 50 then Grade.B
  else if score < 75 then Grade.C
  else Grade.D

/-! ## Risk-score formulas

`backend/app.py:54-58` computes
`Risk_Score = Days * 0.3 + (100 - Trap_Efficiency) * 0.4 + (Missed * 10) * 0.3`
with no clamp on the days term.  The spec's canonical formula clamps the
days term at 100. -/

/-- The risk formula of `load_and_process_data` (backend/app.py:54-58),
as a function of the three feature columns. -/
def riskScoreApp (days eff missed : ℚ) : ℚ :=
  days * (3/10) + (100 - eff) * (4/10) + (missed * 10) * (3/10)

/-- The spec's canonical risk formula (spec §4.3), stated from the
spec's words for comparison:
`0.3 * min(days, 100) + 0.4 * (100 - efficiency) + 0.3 * (missed * 10)`. -/
def canonicalRiskSpec (days eff missed : ℚ) : ℚ :=
  (3/10) * min days 100 + (4/10) * (100 - eff) + (3/10) * (missed * 10)

/-- C1: for every derived record, the grade is exactly the bucket of its
risk score under inclusive-lower/exclusive-upper thresholds 25/50/75.
This fails for `train.py`: its `_assign_grade` uses thresholds
0.08/0.2/0.55, so a record with risk score 0.3 (30 on the 0–100 scale)
is graded C although the claimed thresholds put 30 in bucket B. -/
theorem c1_counterexample :
    assignGradeTrain (3/10) = Grade.C ∧
    specGradeBucket (100 * (3/10)) = Grade.B ∧
    Grade.C ≠ Grade.B := by
  refine ⟨by norm_num [assignGradeTrain], by norm_num [specGradeBucket], by decide⟩

/-- C1 (amended): the ETL's grader does follow the claimed
inclusive-lower/exclusive-upper buckets, on its 0–1 scale: for every
score `q`, `assignGradeEtl q` is exactly the spec bucket of `100 * q`,
and the boundaries land as claimed (0.25 → B, 0.75 → D).  `train.py`'s
grader uses different thresholds (see the counterexample). -/
theorem c1_grade_matches_bucket :
    (∀ q : ℚ, assignGradeEtl q = specGradeBucket (100 * q)) ∧
    assignGradeEtl (1/4) = Grade.B ∧ assignGradeEtl (3/4) = Grade.D := by
  refine ⟨fun q => ?_, by norm_num [assignGradeEtl], by norm_num [assignGradeEtl]⟩
  unfold assignGradeEtl specGradeBucket
  split_ifs with h1 h2 h3 h4 h5 h6 h7 h8 h9 <;> first
    | rfl
    | (exfalso; try linarith)

/-- C2: the pipeline's risk scores all equal the canonical formula
`0.3*min(days,100) + 0.4*(100-eff) + 0.3*(missed*10)`.  This fails for
`backend/app.py`: its formula has no `min(days, 100)` clamp, so at
`days = 200, eff = 100, missed = 0` it yields 60 while the canonical
formula yields 30. -/
theorem c2_counterexample :
    riskScoreApp 200 100 0 = 60 ∧ canonicalRiskSpec 200 100 0 = 30 ∧
    (60 : ℚ) ≠ 30 := by
  refine ⟨by norm_num [riskScoreApp], ?_, by norm_num⟩
  norm_num [canonicalRiskSpec]

/-- C2 (amended): `app.py`'s risk formula agrees with the spec's
canonical formula exactly on the unclamped region, i.e. whenever
`days ≤ 100`; beyond that the source keeps growing linearly in `days`
while the canonical formula is clamped (and `etl.py` uses an entirely
different min-max-normalised formula, see `etlRiskColumn`). -/
theorem c2_risk_agrees_when_days_le_100 (days eff missed : ℚ)
    (h : days ≤ 100) :
    riskScoreApp days eff missed = canonicalRiskSpec days eff missed := by
  unfold riskScoreApp canonicalRiskSpec
  rw [min_eq_left h]
  ring

/-- Witness for `c2_risk_agrees_when_days_le_100` at
`days = 50, eff = 80, missed = 2`. -/
theorem c2_witness :
    (50 : ℚ) ≤ 100 ∧ riskScoreApp 50 80 2 = canonicalRiskSpec 50 80 2 :=
  ⟨by norm_num, c2_risk_agrees_when_days_le_100 50 80 2 (by norm_num)⟩

/-! ## `DataProcessor.clean_data` (backend/utils/helpers/data_processor.py:37-71)

Cleans the frame in place: parses the two date columns with
`errors='coerce'`, fills the three grouping keys with `"Unknown"`,
coerces the two numeric columns with `pd.to_numeric(errors='coerce')`,
then derives `Days_Since_Collection = (now - Collected Date).dt.days`
and `Gallons_per_Trap = gallons / traps`, replacing `±inf` by NaN.

Date cells are modelled already parsed (`Option ℤ`, days since an
epoch; `none` = NaT): on such values `pd.to_datetime(errors='coerce')`
is the identity, and the textual date parsing of the first load is not
itself the subject of any claim.  `datetime.now()` is injected as the
`now` parameter. -/

/-- A raw numeric cell: a number, non-numeric text, or NaN/missing. -/
inductive Val where
  | num (q : ℚ)
  | str (s : String)
  | null
deriving DecidableEq, Repr

/-- `pd.to_numeric(errors='coerce')` on a cell: numbers survive,
non-numeric text becomes NaN, NaN stays NaN. -/
def toNumeric : Val → Val
  | Val.num q => Val.num q
  | _ => Val.null

/-- View a numeric cell as a NaN-able rational. -/
def valToQ : Val → Option ℚ
  | Val.num q => some q
  | _ => none

/-- `df['Gallons_per_Trap'].replace([np.inf, -np.inf], np.nan)`
(data_processor.py:64): infinities collapse to NaN, so only finite
quotients survive. -/
def replaceInfNan : FVal → Option ℚ
  | FVal.fin q => some q
  | _ => none

/-- One row of the `DataProcessor` frame.  Engineered columns `days` and
`gpt` default to `none` (absent before the first clean). -/
structure DPRow where
  outlet : String
  area : Option String
  zone : Option String
  category : Option String
  collected : Option ℤ
  month : Option ℤ
  gallons : Val
  traps : Val
  days : Option ℤ := none
  gpt : Option ℚ := none
deriving DecidableEq, Repr

/-- `DataProcessor.clean_data` on one row (the method is a per-row map:
no column-wide aggregates are used). -/
def dpCleanRow (now : ℤ) (r : DPRow) : DPRow :=
  let g := toNumeric r.gallons
  let t := toNumeric r.traps
  { r with
    area := some (r.area.getD "Unknown")
    zone := some (r.zone.getD "Unknown")
    category := some (r.category.getD "Unknown")
    gallons := g
    traps := t
    days := r.collected.map (fun d => now - d)
    gpt := replaceInfNan (FVal.divOpt (valToQ g) (valToQ t)) }

/-- `DataProcessor.clean_data` over the whole frame. -/
def dpClean (now : ℤ) (rows : List DPRow) : List DPRow :=
  rows.map (dpCleanRow now)

/-- C5: the derivation is claimed to compute
`days = max(0, floor((reference - collected) in days))` and to exclude
null-`collected_at` records.  The code does neither: with reference
time 0, a record collected at day 10 (a future date) gets
`days = -10 < 0`, and a record with a null collected date is kept in
the output (row count 2 is preserved) with `days = NaN`. -/
theorem c5_counterexample :
    ((dpClean 0
        [{ outlet := "O1", area := some "A", zone := some "Z",
           category := some "R", collected := some 10, month := none,
           gallons := Val.num 5, traps := Val.num 1 },
         { outlet := "O2", area := some "A", zone := some "Z",
           category := some "R", collected := none, month := none,
           gallons := Val.num 3, traps := Val.num 1 }]).map DPRow.days
      = [some (-10), none]) ∧ (-10 : ℤ) < 0 := by
  constructor
  · rfl
  · decide

/-- C5 (amended): `Days_Since_Collection` is the raw difference
`reference - collected` with no `max(0, ·)` clamp (so it is negative for
future collection dates), and records with a null `collected_at` are
passed through with a NaN value (`none`) rather than being excluded —
in particular the output has exactly one row per input row. -/
theorem c5_days_unclamped_nulls_kept (now : ℤ) (rows : List DPRow) :
    (dpClean now rows).map DPRow.days
      = rows.map (fun r => r.collected.map (fun d => now - d)) := by
  unfold dpClean
  rw [List.map_map]
  exact List.map_congr_left (fun r _ => rfl)

/-! ## `BlueDataETL.clean_data` (scripts/etl.py:84-228)

`clean_data` fills missing values (`gallons → 0`, `traps → 1`,
`area/category → "Unknown"`), converts date columns with
`errors='coerce'` (identity on already-parsed dates, which is how the
cells are modelled), generates synthetic coordinates when the frame has
no `lat`/`lon` columns, then `_engineer_features` computes
`Days_Since_Collection`, `Gallons_per_Trap` (with `.fillna(0)`),
`Month`, the min-max `Risk_Score` (with `.fillna(0.5)`) and the grade.

Two whole-frame facts are table-level, not row-level, so the table
carries them as flags: whether a `Date` column exists (without it, days
and months are drawn from the global NumPy RNG on *every* run) and
whether coordinate columns exist (set after the first clean).  The
global RNG is modelled as a stream `rand : ℕ → ℕ` together with the
next unconsumed position, threaded exactly as NumPy consumes draws:
two per row for coordinates, then one per row for days and one per row
for the month choice when there is no `Date` column.
`pd.Timestamp.now()` is injected as the `today` parameter. -/

/-- One row of the ETL frame.  Numeric cells are `Option ℚ`
(`none` = NaN); engineered columns start at their pre-run defaults and
are overwritten by the clean. -/
structure ERow where
  gallons : Option ℚ
  traps : Option ℚ
  area : Option String
  category : Option String
  date : Option ℤ
  lat : Option ℚ := none
  lon : Option ℚ := none
  days : Option ℤ := none
  gpt : FVal := FVal.nan
  month : Option ℤ := none
  risk : FVal := FVal.nan
  grade : Grade := Grade.D
deriving DecidableEq, Repr

/-- The ETL frame: the rows plus the two column-existence facts the
source branches on (`'Date' in columns`, `_has_coordinates`). -/
structure ETable where
  hasDate : Bool
  hasCoords : Bool
  rows : List ERow
deriving DecidableEq, Repr

/-- The `fillna` dictionary of `clean_data` (etl.py:93-98):
`gallons → 0`, `traps → 1`, `area → "Unknown"`, `category → "Unknown"`. -/
def etlFillRow (r : ERow) : ERow :=
  { r with
    gallons := some (r.gallons.getD 0)
    traps := some (r.traps.getD 1)
    area := some (r.area.getD "Unknown")
    category := some (r.category.getD "Unknown") }

/-- The hard-coded UAE base coordinates by area (etl.py:134-144);
unlisted areas fall back to the `'Unknown'` entry (Dubai centre). -/
def areaCoordinates (a : String) : ℚ × ℚ :=
  if a = "Dubai Marina" then (25.0920, 55.1381)
  else if a = "Downtown" then (25.1972, 55.2744)
  else if a = "JBR" then (25.0920, 55.1381)
  else if a = "Business Bay" then (25.1867, 55.2708)
  else if a = "Al Quoz" then (25.1500, 55.2500)
  else if a = "Jumeirah" then (25.2285, 55.2867)
  else if a = "Deira" then (25.2667, 55.3000)
  else if a = "Bur Dubai" then (25.2639, 55.2972)
  else (25.2048, 55.2708)

/-- One draw of `np.random.uniform(-0.01, 0.01)` from stream position
`k`, mapped into the interval `[-0.01, 0.01]`. -/
def uniformOffset (rand : ℕ → ℕ) (k : ℕ) : ℚ :=
  ((rand k % 2001 : ℕ) : ℚ) / 100000 - 1/100

/-- `_generate_synthetic_coordinates` (etl.py:129-157): per row, base
coordinates for its area plus two fresh uniform draws (lat then lon). -/
def addCoords (rand : ℕ → ℕ) : ℕ → List ERow → List ERow
  | _, [] => []
  | pos, r :: rest =>
      { r with
        lat := some ((areaCoordinates (r.area.getD "Unknown")).1 + uniformOffset rand pos)
        lon := some ((areaCoordinates (r.area.getD "Unknown")).2 + uniformOffset rand (pos + 1)) }
        :: addCoords rand (pos + 2) rest

/-- `Series.fillna(0)` on a float value: only NaN is replaced —
infinities survive (etl.py:178-181). -/
def fillnaZero (v : FVal) : FVal :=
  match v with
  | FVal.nan => FVal.fin 0
  | x => x

/-- `Series.fillna(0.5)` on a float value (etl.py:214). -/
def fillnaHalf (v : FVal) : FVal :=
  match v with
  | FVal.nan => FVal.fin (1/2)
  | x => x

/-- `Gallons_per_Trap = (gallons / traps).fillna(0)` (etl.py:178-181). -/
def etlGpt (r : ERow) : FVal :=
  fillnaZero (FVal.divOpt r.gallons r.traps)

/-- Column minimum with pandas `skipna` semantics: NaN cells are
ignored; an all-NaN (or empty) column has a NaN minimum. -/
def colMinQ (l : List (Option ℚ)) : Option ℚ :=
  (l.filterMap id).min?

/-- Column maximum, `skipna` like `colMinQ`. -/
def colMaxQ (l : List (Option ℚ)) : Option ℚ :=
  (l.filterMap id).max?

/-- One cell of `(x - col.min()) / (col.max() - col.min())`
(etl.py:202-210): NaN in the cell or in either extreme propagates;
a degenerate column (max = min) gives `0 / 0 = NaN`. -/
def normCell (x mn mx : Option ℚ) : FVal :=
  match x, mn, mx with
  | some q, some a, some b => FVal.divQ (q - a) (b - a)
  | _, _, _ => FVal.nan

/-- `_calculate_risk_score` (etl.py:199-214) as a column function:
`(0.4 * gallons_norm + 0.6 * days_norm).fillna(0.5)`. -/
def etlRiskColumn (gCol : List (Option ℚ)) (dCol : List (Option ℤ)) : List FVal :=
  let gmin := colMinQ gCol
  let gmax := colMaxQ gCol
  let dq := dCol.map (Option.map (fun z : ℤ => (z : ℚ)))
  let dmin := colMinQ dq
  let dmax := colMaxQ dq
  (gCol.zip dq).map (fun p =>
    fillnaHalf (FVal.add (FVal.mulC (2/5) (normCell p.1 gmin gmax))
                         (FVal.mulC (3/5) (normCell p.2 dmin dmax))))

/-- `grade_assigner` applied to a float risk value: on NaN and `+inf`
every `<` comparison is false, landing in the `else` branch `D`; on
`-inf` the first comparison is true, giving `A` (etl.py:218-228). -/
def gradeOfF : FVal → Grade
  | FVal.fin q => assignGradeEtl q
  | FVal.neginf => Grade.A
  | _ => Grade.D

/-- Attach `Risk_Score` and `Grade` (etl.py:191-195): the risk column
is computed from the whole frame's gallons and days columns, then each
row gets its risk value and its grade. -/
def vRow (p : ERow × FVal) : ERow :=
  { p.1 with risk := p.2, grade := gradeOfF p.2 }

/-- See `vRow`: zip the rows with their computed risk column. -/
def applyRisk (rows : List ERow) : List ERow :=
  (rows.zip (etlRiskColumn (rows.map (fun r => r.gallons))
                           (rows.map (fun r => r.days)))).map vRow

/-- The per-row part of `_engineer_features` when a `Date` column
exists: `Days_Since_Collection = (today - Date).dt.days` (NaT gives
NaN), `Gallons_per_Trap`, and `Month = Date.dt.to_period('M')`
(modelled as the date cell itself; the claims never inspect the period
granularity). -/
def uRow (today : ℤ) (r : ERow) : ERow :=
  { r with
    days := r.date.map (fun d => today - d)
    gpt := etlGpt r
    month := r.date }

/-- `_engineer_features` on the deterministic path (a `Date` column
exists). -/
def setDerivedDate (today : ℤ) (rows : List ERow) : List ERow :=
  applyRisk (rows.map (uRow today))

/-- `np.random.randint(1, 90, n)` written into `Days_Since_Collection`
(etl.py:172-175), consuming one stream draw per row, together with the
`Gallons_per_Trap` computation. -/
def setDaysRand (rand : ℕ → ℕ) : ℕ → List ERow → List ERow
  | _, [] => []
  | k, r :: rest =>
      { r with days := some (1 + ((rand k % 89 : ℕ) : ℤ)), gpt := etlGpt r }
        :: setDaysRand rand (k + 1) rest

/-- `np.random.choice(months, n)` over the fixed 48-entry month range
(etl.py:187-189), one draw per row; the chosen month is stored as its
index in that range. -/
def setMonthRand (rand : ℕ → ℕ) : ℕ → List ERow → List ERow
  | _, [] => []
  | k, r :: rest =>
      { r with month := some ((rand k % 48 : ℕ) : ℤ) } :: setMonthRand rand (k + 1) rest

/-- `_engineer_features` on the synthetic path (no `Date` column):
random days (positions `pos..pos+n-1`), then random months
(positions `pos+n..pos+2n-1`), then the risk column and grades. -/
def setDerivedRand (rand : ℕ → ℕ) (pos : ℕ) (rows : List ERow) : List ERow :=
  applyRisk (setMonthRand rand (pos + rows.length) (setDaysRand rand pos rows))

/-- `BlueDataETL.clean_data` (etl.py:84-122): fill missing values,
generate coordinates if absent (consuming two draws per row), then
engineer features — deterministically from the `Date` column when it
exists, otherwise from fresh RNG draws.  Returns the cleaned table and
the next unconsumed RNG position. -/
def etlClean (rand : ℕ → ℕ) (today : ℤ) (t : ETable) (pos : ℕ) : ETable × ℕ :=
  let filled := t.rows.map etlFillRow
  let cpack :=
    if t.hasCoords then (filled, pos)
    else (addCoords rand pos filled, pos + 2 * filled.length)
  if t.hasDate then
    ({ hasDate := t.hasDate, hasCoords := true, rows := setDerivedDate today cpack.1 }, cpack.2)
  else
    ({ hasDate := t.hasDate, hasCoords := true, rows := setDerivedRand rand cpack.2 cpack.1 },
      cpack.2 + 2 * cpack.1.length)

/-- Concrete row for the C4 counterexample: a non-numeric trap count. -/
def c4DpRow : DPRow :=
  { outlet := "O1", area := some "A", zone := some "Z", category := some "R",
    collected := some 0, month := none, gallons := Val.num 5, traps := Val.str "two" }

/-- C4: normalization is claimed to leave every record with
`trap_count ≥ 1` and a finite `gallons_per_trap`.  It does not: the ETL
`fillna` only replaces missing values, so an explicit `trap_count = 0`
survives and `gallons_per_trap = 5 / 0 = +inf`; and `data_processor`'s
`to_numeric(errors='coerce')` turns a non-numeric trap count into NaN —
never into 1 — leaving `gallons_per_trap` NaN (undefined). -/
theorem c4_counterexample :
    etlGpt (etlFillRow { gallons := some 5, traps := some 0, area := some "A",
                         category := some "R", date := none }) = FVal.inf ∧
    FVal.inf.isFinite = false ∧
    (dpCleanRow 0 c4DpRow).traps = Val.null ∧ Val.null ≠ Val.num 1 ∧
    (dpCleanRow 0 c4DpRow).gpt = none := by
  refine ⟨by decide, by decide, by decide, by decide, by decide⟩

/-- C4 (amended): a *missing* trap count is defaulted to 1 by the ETL
fill step, and the resulting `gallons_per_trap` is the (finite) filled
gallons value itself; explicit zeros and non-numeric text are not
remapped, so only the missing case guarantees a finite quotient. -/
theorem c4_missing_traps_defaulted (r : ERow) (h : r.traps = none) :
    (etlFillRow r).traps = some 1 ∧
    etlGpt (etlFillRow r) = FVal.fin (r.gallons.getD 0) := by
  constructor
  · simp [etlFillRow, h]
  · cases hg : r.gallons <;>
      simp [etlGpt, etlFillRow, h, hg, FVal.divOpt, FVal.divQ, fillnaZero]

/-- Concrete row for the C4 witness: a missing trap count. -/
def c4ERow : ERow :=
  { gallons := some 7, traps := none, area := some "A", category := some "R", date := none }

/-- Witness for `c4_missing_traps_defaulted` at a record whose trap
count is missing. -/
theorem c4_witness :
    c4ERow.traps = none ∧ (etlFillRow c4ERow).traps = some 1 ∧
    etlGpt (etlFillRow c4ERow) = FVal.fin (c4ERow.gallons.getD 0) :=
  ⟨rfl, (c4_missing_traps_defaulted c4ERow rfl).1,
    (c4_missing_traps_defaulted c4ERow rfl).2⟩

/-! ## C10: degenerate min-max normalisation -/

/-- Folding `min` over a list of copies of `g`, starting from `g`,
stays `g`. -/
theorem foldl_min_const (g : ℚ) :
    ∀ l : List ℚ, (∀ x ∈ l, x = g) → l.foldl min g = g
  | [], _ => rfl
  | a :: l, h => by
      have ha : a = g := h a (List.mem_cons_self a l)
      rw [List.foldl_cons, ha, min_self]
      exact foldl_min_const g l (fun x hx => h x (List.mem_cons_of_mem _ hx))

/-- Folding `max` over a list of copies of `g`, starting from `g`,
stays `g`. -/
theorem foldl_max_const (g : ℚ) :
    ∀ l : List ℚ, (∀ x ∈ l, x = g) → l.foldl max g = g
  | [], _ => rfl
  | a :: l, h => by
      have ha : a = g := h a (List.mem_cons_self a l)
      rw [List.foldl_cons, ha, max_self]
      exact foldl_max_const g l (fun x hx => h x (List.mem_cons_of_mem _ hx))

/-- The minimum of a nonempty constant list. -/
theorem min?_const (g : ℚ) (l : List ℚ) (hne : l ≠ [])
    (h : ∀ x ∈ l, x = g) : l.min? = some g := by
  cases l with
  | nil => exact absurd rfl hne
  | cons a as =>
      have ha : a = g := h a (List.mem_cons_self a as)
      simp only [List.min?_cons', ha]
      rw [foldl_min_const g as (fun x hx => h x (List.mem_cons_of_mem _ hx))]

/-- The maximum of a nonempty constant list. -/
theorem max?_const (g : ℚ) (l : List ℚ) (hne : l ≠ [])
    (h : ∀ x ∈ l, x = g) : l.max? = some g := by
  cases l with
  | nil => exact absurd rfl hne
  | cons a as =>
      have ha : a = g := h a (List.mem_cons_self a as)
      simp only [List.max?_cons', ha]
      rw [foldl_max_const g as (fun x hx => h x (List.mem_cons_of_mem _ hx))]

/-- Concrete singleton row for the C10 counterexample. -/
def c10Row : ERow :=
  { gallons := some 5, traps := some 2, area := some "Al Quoz",
    category := some "Cafe", date := some 0 }

/-- C10: on a single-record input both min-max normalisations are
degenerate, the NaN risk score is filled with 0.5 — but the record is
graded C, not B as claimed: `grade_assigner` buckets are exclusive at
the upper bound, and `0.5 < 0.5` is false. -/
theorem c10_counterexample :
    (setDerivedDate 40 [c10Row]).map (fun r => (r.risk, r.grade))
      = [(FVal.fin (1/2), Grade.C)] ∧ Grade.C ≠ Grade.B := by
  constructor
  · norm_num [setDerivedDate, applyRisk, uRow, vRow, etlRiskColumn, colMinQ, colMaxQ,
      normCell, fillnaHalf, FVal.mulC, FVal.add, etlGpt, FVal.divOpt, fillnaZero, c10Row,
      FVal.divQ, assignGradeEtl, gradeOfF, List.filterMap_cons, List.filterMap_nil,
      List.min?, List.max?, List.foldl, min_self, max_self]
  · decide

/-- C10 (amended): whenever the gallons column is constant (e.g. a
single-record frame), every normalised score is NaN, every risk score
is filled with the constant 0.5, and every affected record is graded C
(0.5 lies in the `[0.5, 0.75)` bucket since thresholds are
exclusive-upper); the computation is total — no NaN risk survives. -/
theorem c10_degenerate_scores_become_half (gCol : List (Option ℚ))
    (dCol : List (Option ℤ)) (g : ℚ) (hall : ∀ x ∈ gCol, x = some g) :
    ∀ v ∈ etlRiskColumn gCol dCol, v = FVal.fin (1/2) ∧ gradeOfF v = Grade.C := by
  intro v hv
  unfold etlRiskColumn at hv
  simp only [List.mem_map] at hv
  obtain ⟨⟨a, b⟩, hp, rfl⟩ := hv
  have hmem := List.of_mem_zip hp
  have ha : a = some g := hall a hmem.1
  have hgmem : some g ∈ gCol := ha ▸ hmem.1
  have hconst : ∀ y ∈ gCol.filterMap id, y = g := by
    intro y hy
    obtain ⟨x, hx, hid⟩ := List.mem_filterMap.mp hy
    have := hall x hx
    rw [this] at hid
    exact (Option.some_injective _ hid).symm
  have hne : gCol.filterMap id ≠ [] :=
    List.ne_nil_of_mem (List.mem_filterMap.mpr ⟨some g, hgmem, rfl⟩)
  have hmin : colMinQ gCol = some g := min?_const g _ hne hconst
  have hmax : colMaxQ gCol = some g := max?_const g _ hne hconst
  have hnorm : normCell a (colMinQ gCol) (colMaxQ gCol) = FVal.nan := by
    rw [ha, hmin, hmax]
    simp [normCell, FVal.divQ]
  rw [hnorm]
  constructor
  · simp [FVal.mulC, FVal.add, fillnaHalf]
  · simp [FVal.mulC, FVal.add, fillnaHalf, gradeOfF]
    norm_num [assignGradeEtl]

/-- Witness for `c10_degenerate_scores_become_half` on a concrete
single-record column pair. -/
theorem c10_witness :
    (∀ x ∈ [some (5 : ℚ)], x = some 5) ∧
    ∀ v ∈ etlRiskColumn [some (5 : ℚ)] [some (40 : ℤ)],
      v = FVal.fin (1/2) ∧ gradeOfF v = Grade.C :=
  ⟨by simp, c10_degenerate_scores_become_half _ _ 5 (by simp)⟩

/-! ## C3: idempotence of normalization -/

/-- Coercing a coerced cell again changes nothing. -/
theorem toNumeric_idem (v : Val) : toNumeric (toNumeric v) = toNumeric v := by
  cases v <;> rfl

/-- `DataProcessor.clean_data` is idempotent row-wise: every cleaning
operation (coercion, `fillna`, the derived columns recomputed from the
unchanged raw fields) is a fixpoint on its own output. -/
theorem dpCleanRow_idem (now : ℤ) (r : DPRow) :
    dpCleanRow now (dpCleanRow now r) = dpCleanRow now r := by
  cases r
  simp [dpCleanRow, toNumeric_idem]

/-- A row whose four fillable fields are all present. -/
def Filled (r : ERow) : Prop :=
  r.gallons.isSome ∧ r.traps.isSome ∧ r.area.isSome ∧ r.category.isSome

/-- The fill step always produces a fully-filled row. -/
theorem filled_etlFillRow (r : ERow) : Filled (etlFillRow r) := by
  cases r
  simp [Filled, etlFillRow]

/-- The fill step does not change an already-filled row. -/
theorem etlFillRow_of_filled {r : ERow} (h : Filled r) : etlFillRow r = r := by
  obtain ⟨hg, ht, ha, hc⟩ := h
  obtain ⟨g, hg⟩ := Option.isSome_iff_exists.mp hg
  obtain ⟨t, ht⟩ := Option.isSome_iff_exists.mp ht
  obtain ⟨a, ha⟩ := Option.isSome_iff_exists.mp ha
  obtain ⟨c, hc⟩ := Option.isSome_iff_exists.mp hc
  cases r
  simp only at hg ht ha hc
  simp [etlFillRow, hg, ht, ha, hc]

/-- Synthetic coordinates leave the fillable fields untouched. -/
theorem filled_addCoords (rand : ℕ → ℕ) :
    ∀ (pos : ℕ) (l : List ERow), (∀ r ∈ l, Filled r) →
      ∀ r ∈ addCoords rand pos l, Filled r
  | _, [], _ => by intro r hr; simp [addCoords] at hr
  | pos, a :: l, h => by
      intro r hr
      simp only [addCoords, List.mem_cons] at hr
      rcases hr with rfl | hr
      · exact h a (List.mem_cons_self a l)
      · exact filled_addCoords rand (pos + 2) l
          (fun x hx => h x (List.mem_cons_of_mem _ hx)) r hr

/-- Attaching risk and grade leaves the fillable fields untouched. -/
theorem filled_applyRisk {l : List ERow} (h : ∀ r ∈ l, Filled r) :
    ∀ r ∈ applyRisk l, Filled r := by
  intro r hr
  unfold applyRisk at hr
  simp only [List.mem_map] at hr
  obtain ⟨⟨a, b⟩, hp, rfl⟩ := hr
  exact h a (List.of_mem_zip hp).1

/-- Re-deriving the per-row date features on an already-derived row is
the identity: the raw inputs (`date`, `gallons`, `traps`) are unchanged
by both `uRow` and `vRow`, so each field is overwritten with itself. -/
theorem uRow_vRow_uRow (today : ℤ) (r : ERow) (k : FVal) :
    uRow today (vRow (uRow today r, k)) = vRow (uRow today r, k) := by
  cases r
  rfl

/-- Zipping with an at-least-as-long list and projecting the first
component is just mapping over the original list. -/
theorem zip_map_fst {α β γ : Type} (f : α → γ) :
    ∀ (l : List α) (k : List β), l.length ≤ k.length →
      (l.zip k).map (fun p => f p.1) = l.map f
  | [], _, _ => rfl
  | a :: l, [], h => by simp at h
  | a :: l, b :: k, h => by
      simp only [List.zip_cons_cons, List.map_cons]
      rw [zip_map_fst f l k (Nat.le_of_succ_le_succ h)]

/-- Re-attaching the same risk column is the identity: the double
record update collapses. -/
theorem zip_map_vRow_again :
    ∀ (l : List ERow) (k : List FVal),
      (((l.zip k).map vRow).zip k).map vRow = (l.zip k).map vRow
  | [], _ => rfl
  | _ :: _, [] => rfl
  | a :: l, b :: k => by
      simp only [List.zip_cons_cons, List.map_cons]
      rw [zip_map_vRow_again l k]
      have : vRow (vRow (a, b), b) = vRow (a, b) := by cases a; rfl
      rw [this]

/-- The risk column has one entry per row of equally-long columns. -/
theorem etlRiskColumn_length (g : List (Option ℚ)) (d : List (Option ℤ)) :
    (etlRiskColumn g d).length = min g.length d.length := by
  simp [etlRiskColumn]

/-- `applyRisk` is idempotent: the second pass recomputes the same risk
column (the gallons and days columns are untouched by `vRow`) and
overwrites each row's risk and grade with their current values. -/
theorem applyRisk_idem (l : List ERow) : applyRisk (applyRisk l) = applyRisk l := by
  have hlen : (etlRiskColumn (l.map (fun r => r.gallons))
      (l.map (fun r => r.days))).length = l.length := by
    simp [etlRiskColumn_length]
  have hg : (applyRisk l).map (fun r => r.gallons) = l.map (fun r => r.gallons) := by
    unfold applyRisk
    rw [List.map_map]
    exact zip_map_fst (fun r : ERow => r.gallons) l _ (le_of_eq hlen.symm)
  have hd : (applyRisk l).map (fun r => r.days) = l.map (fun r => r.days) := by
    unfold applyRisk
    rw [List.map_map]
    exact zip_map_fst (fun r : ERow => r.days) l _ (le_of_eq hlen.symm)
  calc applyRisk (applyRisk l)
      = ((applyRisk l).zip
          (etlRiskColumn ((applyRisk l).map (fun r => r.gallons))
            ((applyRisk l).map (fun r => r.days)))).map vRow := rfl
    _ = ((applyRisk l).zip
          (etlRiskColumn (l.map (fun r => r.gallons))
            (l.map (fun r => r.days)))).map vRow := by rw [hg, hd]
    _ = (((l.zip (etlRiskColumn (l.map (fun r => r.gallons))
            (l.map (fun r => r.days)))).map vRow).zip
          (etlRiskColumn (l.map (fun r => r.gallons))
            (l.map (fun r => r.days)))).map vRow := rfl
    _ = applyRisk l := zip_map_vRow_again _ _

/-- Re-running the deterministic feature derivation on its own output
changes nothing: per-row features are recomputed from the unchanged raw
fields and the risk column is recomputed from the unchanged columns. -/
theorem setDerivedDate_idem (today : ℤ) (l : List ERow) :
    setDerivedDate today (setDerivedDate today l) = setDerivedDate today l := by
  unfold setDerivedDate
  have h : ∀ r ∈ applyRisk (l.map (uRow today)), uRow today r = r := by
    intro r hr
    unfold applyRisk at hr
    simp only [List.mem_map] at hr
    obtain ⟨⟨a, b⟩, hp, rfl⟩ := hr
    have ha : a ∈ l.map (uRow today) := (List.of_mem_zip hp).1
    obtain ⟨r₂, _, rfl⟩ := List.mem_map.mp ha
    exact uRow_vRow_uRow today r₂ b
  have hmap : (applyRisk (l.map (uRow today))).map (uRow today)
      = applyRisk (l.map (uRow today)) := by
    have h1 : (applyRisk (l.map (uRow today))).map (uRow today)
        = (applyRisk (l.map (uRow today))).map id := List.map_congr_left h
    rw [h1, List.map_id]
  rw [hmap, applyRisk_idem]

/-- Evaluation of `etlClean` when both a `Date` column and coordinate
columns exist: fill, then derive deterministically; no RNG draw is
consumed. -/
theorem etlClean_true_true (rand : ℕ → ℕ) (today : ℤ) (l : List ERow) (q : ℕ) :
    etlClean rand today { hasDate := true, hasCoords := true, rows := l } q
      = ({ hasDate := true, hasCoords := true,
           rows := setDerivedDate today (l.map etlFillRow) }, q) := rfl

/-- Evaluation of `etlClean` with a `Date` column and existing
coordinates. -/
theorem etlClean_date_coords (rand : ℕ → ℕ) (today : ℤ) (t : ETable) (pos : ℕ)
    (hd : t.hasDate = true) (hc : t.hasCoords = true) :
    etlClean rand today t pos
      = ({ hasDate := true, hasCoords := true,
           rows := setDerivedDate today (t.rows.map etlFillRow) }, pos) := by
  simp only [etlClean, hd, hc, if_true]

/-- Evaluation of `etlClean` with a `Date` column but no coordinate
columns: coordinates are generated, consuming two draws per row. -/
theorem etlClean_date_nocoords (rand : ℕ → ℕ) (today : ℤ) (t : ETable) (pos : ℕ)
    (hd : t.hasDate = true) (hc : t.hasCoords = false) :
    etlClean rand today t pos
      = ({ hasDate := true, hasCoords := true,
           rows := setDerivedDate today (addCoords rand pos (t.rows.map etlFillRow)) },
         pos + 2 * (t.rows.map etlFillRow).length) := by
  simp only [etlClean, hd, hc, if_true, Bool.false_eq_true, if_false]

/-- C3 (amended): with the reference time injected and — for the ETL —
a `Date` column present, normalization is idempotent: `dpClean` is a
fixpoint on its own output for every input, and a second `etlClean` on
the cleaned table (at any RNG position `q`) returns the table unchanged
and consumes no randomness.  Without a `Date` column the ETL redraws
days and months from the RNG stream on every run and is not idempotent
(see the counterexample). -/
theorem c3_idempotent :
    (∀ (now : ℤ) (rows : List DPRow),
        dpClean now (dpClean now rows) = dpClean now rows) ∧
    (∀ (rand : ℕ → ℕ) (today : ℤ) (t : ETable) (pos q : ℕ),
        t.hasDate = true →
        etlClean rand today (etlClean rand today t pos).1 q
          = ((etlClean rand today t pos).1, q)) := by
  constructor
  · intro now rows
    unfold dpClean
    rw [List.map_map]
    exact List.map_congr_left (fun r _ => dpCleanRow_idem now r)
  · intro rand today t pos q hd
    have step : ∀ l : List ERow, (∀ r ∈ l, Filled r) →
        etlClean rand today (ETable.mk true true (setDerivedDate today l)) q
        = (ETable.mk true true (setDerivedDate today l), q) := by
      intro l hl
      rw [etlClean_true_true]
      have hAll : ∀ r ∈ setDerivedDate today l, Filled r := by
        unfold setDerivedDate
        refine filled_applyRisk ?_
        intro r hr
        obtain ⟨r₂, hr₂, rfl⟩ := List.mem_map.mp hr
        exact hl r₂ hr₂
      have hfill : (setDerivedDate today l).map etlFillRow = setDerivedDate today l := by
        have h1 : (setDerivedDate today l).map etlFillRow
            = (setDerivedDate today l).map id :=
          List.map_congr_left (fun r hr => etlFillRow_of_filled (hAll r hr))
        rw [h1, List.map_id]
      rw [hfill, setDerivedDate_idem]
    by_cases hc : t.hasCoords
    · rw [etlClean_date_coords rand today t pos hd hc]
      refine step (t.rows.map etlFillRow) ?_
      intro r hr
      obtain ⟨r₀, _, rfl⟩ := List.mem_map.mp hr
      exact filled_etlFillRow r₀
    · rw [etlClean_date_nocoords rand today t pos hd (Bool.not_eq_true _ ▸ hc)]
      refine step (addCoords rand pos (t.rows.map etlFillRow)) ?_
      refine filled_addCoords rand pos _ ?_
      intro r hr
      obtain ⟨r₀, _, rfl⟩ := List.mem_map.mp hr
      exact filled_etlFillRow r₀

/-- A one-row frame with neither a `Date` column nor coordinates: the
ETL must synthesise days/months from the global RNG. -/
def c3Table : ETable :=
  { hasDate := false, hasCoords := false,
    rows := [{ gallons := some 5, traps := some 2, area := some "JBR",
               category := some "Cafe", date := none }] }

/-- C3: `normalize(normalize(X)) = normalize(X)` is claimed for any
input.  It fails for `etl.py` when the frame has no `Date` column: the
first run draws `Days_Since_Collection` from RNG position 2 (value 3),
the second run — on the first run's own output — redraws it from
position 4 (value 5), so re-running normalization changes the data. -/
theorem c3_counterexample :
    ((etlClean (fun k => k) 0 c3Table 0).1.rows.map (fun r => r.days) = [some 3]) ∧
    ((etlClean (fun k => k) 0 (etlClean (fun k => k) 0 c3Table 0).1
        (etlClean (fun k => k) 0 c3Table 0).2).1.rows.map (fun r => r.days) = [some 5]) ∧
    some (3 : ℤ) ≠ some 5 := by
  refine ⟨by decide, by decide, by decide⟩

/-- A one-row frame with a `Date` column and no coordinates, for the C3
witness. -/
def c3ETable : ETable :=
  { hasDate := true, hasCoords := false,
    rows := [{ gallons := some 4, traps := some 2, area := some "Deira",
               category := some "Cafe", date := some 10 }] }

/-- A raw row for the C3 witness (data_processor side). -/
def c3DpRow : DPRow :=
  { outlet := "O9", area := none, zone := some "Z", category := none,
    collected := some 4, month := none, gallons := Val.str "x", traps := Val.num 2 }

/-- Witness for `c3_idempotent`: both halves applied at concrete
inputs; the ETL table has a `Date` column, discharging the hypothesis. -/
theorem c3_witness :
    dpClean 9 (dpClean 9 [c3DpRow]) = dpClean 9 [c3DpRow] ∧
    etlClean (fun k => k) 40 (etlClean (fun k => k) 40 c3ETable 0).1 77
      = ((etlClean (fun k => k) 40 c3ETable 0).1, 77) :=
  ⟨c3_idempotent.1 9 [c3DpRow], c3_idempotent.2 (fun k => k) 40 c3ETable 0 77 rfl⟩

/-! ## Risk ranking (C6)

`backend/app.py:279-281` filters `Risk_Score > 70` and sorts descending
by `Risk_Score`; `DataProcessor.get_high_risk_outlets`
(data_processor.py:116-130) instead filters
`Days_Since_Collection > threshold_days`, groups per outlet and sorts
descending by days.  `pandas.sort_values(ascending=False)` computes an
ascending argsort and reverses it, with implementation-defined tie
order (NumPy quicksort); it is modelled as the reverse of a stable
ascending sort. -/

/-- A derived record as seen by the risk ranker: identifier, days since
collection, gallons, risk score, and the grouping fields. -/
structure HRow where
  outlet : String
  area : String
  zone : String
  days : ℤ
  gallons : ℚ
  risk : ℚ
deriving DecidableEq, Repr

/-- One aggregated outlet row of `get_high_risk_outlets`: max days, sum
of gallons, first area/zone per outlet group. -/
structure HAgg where
  outlet : String
  maxDays : ℤ
  totGallons : ℚ
  area : String
  zone : String
deriving DecidableEq, Repr

/-- `DataProcessor.get_high_risk_outlets` (data_processor.py:116-130):
filter `Days_Since_Collection > threshold_days`, group by outlet
(pandas sorts group keys ascending), aggregate max/sum/first, then sort
by days descending. -/
def get_high_risk_outlets (thresholdDays : ℤ) (rows : List HRow) : List HAgg :=
  let hr := rows.filter (fun r => decide (thresholdDays < r.days))
  let keys := ((hr.map (fun r => r.outlet)).dedup).insertionSort (· ≤ ·)
  let agg := keys.map (fun k =>
    let grp := hr.filter (fun r => r.outlet == k)
    { outlet := k
      maxDays := ((grp.map (fun r => r.days)).max?).getD 0
      totGallons := (grp.map (fun r => r.gallons)).sum
      area := (grp.map (fun r => r.area)).headD ""
      zone := (grp.map (fun r => r.zone)).headD "" })
  (agg.insertionSort (fun a b => a.maxDays ≤ b.maxDays)).reverse

/-- `rank_high_risk` as the spec words it, for comparison: keep exactly
the records with `risk_score > threshold`, sort descending by
`risk_score`, ties broken by ascending `outlet_id`. -/
def rankHighRiskSpec (threshold : ℚ) (rows : List HRow) : List HRow :=
  (rows.filter (fun r => decide (threshold < r.risk))).insertionSort
    (fun a b => b.risk < a.risk ∨ (a.risk = b.risk ∧ a.outlet ≤ b.outlet))

/-- Concrete record for the C6 counterexample: high risk score, low
days since collection. -/
def c6Row : HRow :=
  { outlet := "O1", area := "A", zone := "Z", days := 5, gallons := 10, risk := 50 }

/-- C6: `rank_high_risk` is claimed to return exactly the records with
`risk_score` strictly above the threshold.  `get_high_risk_outlets`
filters on `Days_Since_Collection`, not on the risk score: a record
with risk 50 (> 30) but only 5 days since collection is dropped, while
the spec's ranking returns it. -/
theorem c6_counterexample :
    (get_high_risk_outlets 30 [c6Row]).map (fun a => a.outlet) = [] ∧
    (rankHighRiskSpec 30 [c6Row]).map (fun r => r.outlet) = ["O1"] ∧
    ([] : List String) ≠ ["O1"] := by
  refine ⟨by decide, by decide, by decide⟩

/-- An `app.py` row as the scheduling endpoint sees it. -/
structure ARow where
  outlet : String
  risk : ℚ
deriving DecidableEq, Repr

/-- Ascending comparison on the risk score. -/
def riskLE (a b : ARow) : Prop := a.risk ≤ b.risk

instance : DecidableRel riskLE :=
  fun a b => inferInstanceAs (Decidable (a.risk ≤ b.risk))

instance : IsTotal ARow riskLE := ⟨fun a b => le_total a.risk b.risk⟩

instance : IsTrans ARow riskLE := ⟨fun _ _ _ h1 h2 => le_trans h1 h2⟩

/-- `get_scheduling`'s high-risk selection (backend/app.py:279-281):
`df[df['Risk_Score'] > 70].sort_values('Risk_Score', ascending=False)`,
modelled as the reverse of a stable ascending sort (pandas reverses an
ascending argsort; tie order is implementation-defined). -/
def highRiskApp (rows : List ARow) : List ARow :=
  ((rows.filter (fun r => decide ((70 : ℚ) < r.risk))).insertionSort riskLE).reverse

/-- C6 (amended): `app.py`'s selection keeps exactly the records with
`Risk_Score` strictly greater than 70 (a permutation of the strict
filter) and returns them sorted descending by risk score; the source
specifies no tie-break, so the relative order of equal scores is
implementation-defined rather than ascending by outlet id — and
`data_processor`'s variant ranks by days since collection instead (see
the counterexample). -/
theorem c6_strict_filter_desc_sort (rows : List ARow) :
    (highRiskApp rows).Perm (rows.filter (fun r => decide ((70 : ℚ) < r.risk))) ∧
    (highRiskApp rows).Sorted (fun a b => b.risk ≤ a.risk) := by
  constructor
  · exact (List.reverse_perm _).trans (List.perm_insertionSort _ _)
  · have hs := List.sorted_insertionSort riskLE
      (rows.filter (fun r => decide ((70 : ℚ) < r.risk)))
    unfold highRiskApp
    exact List.pairwise_reverse.mpr hs

/-! ## Scheduling (C7) -/

/-- The weekly batches of `get_scheduling` (backend/app.py:291-305):
week `i` gets `high_risk.head((i + 1) * 10)` — an initial *prefix*
growing with `i`, not a slice. -/
def scheduleApp (ranked : List ARow) : List (List ARow) :=
  (List.range 4).map (fun i => ranked.take ((i + 1) * 10))

/-- Concrete ranked record for the C7 counterexample. -/
def c7Row : ARow := { outlet := "O1", risk := 90 }

/-- C7: batches are claimed disjoint, with batch `i` holding positions
`[i*batch_size, (i+1)*batch_size)`.  In `app.py` the single ranked
record appears in *every* batch: batch 0 and batch 1 both equal the
whole list, whereas the claimed partition would leave batch 1 empty. -/
theorem c7_counterexample :
    (scheduleApp [c7Row]).getD 0 [] = [c7Row] ∧
    (scheduleApp [c7Row]).getD 1 [] = [c7Row] ∧
    ([c7Row] : List ARow) ≠ ([] : List ARow) := by
  refine ⟨by decide, by decide, by decide⟩

/-- Batching by fives, with enough fuel: mirrors
`for i in range(0, len(outlets_list), 5)` (backend/app_real.py:348),
producing `⌈len/5⌉` consecutive slices. -/
def chunksAux {α : Type} : ℕ → List α → List (List α)
  | 0, _ => []
  | _ + 1, [] => []
  | f + 1, a :: rest => (a :: rest).take 5 :: chunksAux f ((a :: rest).drop 5)

/-- `scheduling` of `backend/app_real.py:332-357`: take the 20 highest
ranked outlets (`head(20)`) and slice them into weekly batches of 5
(`iloc[i:i+5]`); 4 units of fuel cover `⌈20/5⌉` slices. -/
def scheduleReal {α : Type} (ranked : List α) : List (List α) :=
  chunksAux 4 (ranked.take 20)

/-- Concatenating the batches restores the batched list. -/
theorem chunksAux_join {α : Type} :
    ∀ (f : ℕ) (l : List α), l.length ≤ 5 * f → (chunksAux f l).flatten = l
  | 0, l, h => by
      have hl : l = [] := List.eq_nil_of_length_eq_zero (by omega)
      simp [hl, chunksAux]
  | _ + 1, [], _ => by simp [chunksAux]
  | f + 1, a :: rest, h => by
      simp only [chunksAux, List.flatten_cons]
      have hlen : ((a :: rest).drop 5).length ≤ 5 * f := by
        rw [List.length_drop]
        simp only [List.length_cons] at h ⊢
        omega
      rw [chunksAux_join f _ hlen, List.take_append_drop]

/-- Batch `i` is exactly the slice `[5*i, 5*i+5)` of the batched list. -/
theorem chunksAux_get? {α : Type} :
    ∀ (f i : ℕ) (l : List α), i < (chunksAux f l).length →
      (chunksAux f l).get? i = some ((l.drop (5 * i)).take 5)
  | 0, i, l, h => by simp [chunksAux] at h
  | _ + 1, i, [], h => by simp [chunksAux] at h
  | f + 1, 0, a :: rest, _ => by simp [chunksAux]
  | f + 1, i + 1, a :: rest, h => by
      simp only [chunksAux, List.length_cons] at h
      have hi : i < (chunksAux f ((a :: rest).drop 5)).length := by omega
      have := chunksAux_get? f i ((a :: rest).drop 5) hi
      simp only [chunksAux, List.get?_cons_succ]
      rw [this, List.drop_drop]
      have harith : 5 + 5 * i = 5 * (i + 1) := by ring
      rw [harith]

/-- C7 (amended): `app_real.py`'s scheduling partitions the first 20
ranked records into consecutive disjoint batches of 5 — joining the
batches gives back exactly `ranked.take 20`, and batch `i` is the slice
`[5*i, 5*i+5)` of it; shorter inputs simply yield fewer or smaller
batches, never an error.  `app.py`'s variant instead returns growing
overlapping prefixes `head((i+1)*10)` (see the counterexample). -/
theorem c7_real_partitions {α : Type} (ranked : List α) :
    (scheduleReal ranked).flatten = ranked.take 20 ∧
    ∀ i, i < (scheduleReal ranked).length →
      (scheduleReal ranked).get? i = some (((ranked.take 20).drop (5 * i)).take 5) := by
  constructor
  · refine chunksAux_join 4 _ ?_
    rw [List.length_take]
    omega
  · intro i hi
    exact chunksAux_get? 4 i _ hi

/-- Witness for `c7_real_partitions` on a 7-element list: the join
equation and the slice equation for batch 1. -/
theorem c7_witness :
    (scheduleReal [0, 1, 2, 3, 4, 5, 6]).flatten = [0, 1, 2, 3, 4, 5, 6].take 20 ∧
    1 < (scheduleReal [0, 1, 2, 3, 4, 5, 6]).length ∧
    (scheduleReal [0, 1, 2, 3, 4, 5, 6]).get? 1
      = some ((([0, 1, 2, 3, 4, 5, 6].take 20).drop (5 * 1)).take 5) :=
  ⟨(c7_real_partitions [0, 1, 2, 3, 4, 5, 6]).1, by decide,
    (c7_real_partitions [0, 1, 2, 3, 4, 5, 6]).2 1 (by decide)⟩

/-! ## Model training gate (C8) -/

/-- The feature columns of `ModelTrainer.prepare_features`
(model_trainer.py:44): gallons, traps, days since collection, gallons
per trap; `none` = NaN. -/
structure TRow where
  gallons : Option ℚ
  traps : Option ℚ
  days : Option ℚ
  gpt : Option ℚ
deriving DecidableEq, Repr

/-- A row survives the `dropna` of model_trainer.py:49 iff every
feature is present (the `Missed_Cleaning` target, computed as
`days > 30` with NaN comparing false, is never null). -/
def trowComplete (r : TRow) : Bool :=
  r.gallons.isSome && r.traps.isSome && r.days.isSome && r.gpt.isSome

/-- `MODEL_SETTINGS['min_data_threshold']` (backend/config/settings.py:69). -/
def min_data_threshold : ℕ := 100

/-- `ModelTrainer.prepare_features` (model_trainer.py:40-57): drop
incomplete rows, then refuse (`None`) when fewer than
`min_data_threshold` usable rows remain. -/
def prepare_features (rows : List TRow) : Option (List TRow) :=
  let model_data := rows.filter trowComplete
  if model_data.length < min_data_threshold then none else some model_data

/-- A trained-model artifact: the usable rows it was fitted on (the
random-forest fit itself is outside the embedding; what the claims
need is whether an artifact exists at all). -/
structure TrainedModel where
  trainData : List TRow
deriving DecidableEq, Repr

/-- `ModelTrainer.train_all_models` (model_trainer.py:160-188): when
`prepare_features` refuses, the pipeline aborts (the 3-value return
fails the 4-way unpacking, the exception is caught, `False` is
returned) and `self.models` stays empty; otherwise models are fitted
on the prepared data. -/
def train_all_models (rows : List TRow) : Option TrainedModel :=
  (prepare_features rows).map (fun d => { trainData := d })

/-- `train_models` of `backend/app_real.py:47-84`: the missed-cleaning
model is stored only when `len(model_data) > 100` holds strictly. -/
def appRealTrainMissed (rows : List TRow) : Option TrainedModel :=
  let model_data := rows.filter trowComplete
  if 100 < model_data.length then some { trainData := model_data } else none

/-- C8 (confirmed): with fewer than 100 usable (complete-feature)
records, training fails and no model artifact — not even a partial
one — is produced or stored, in both training entry points. -/
theorem c8_insufficient_data_no_model (rows : List TRow)
    (h : (rows.filter trowComplete).length < 100) :
    train_all_models rows = none ∧ appRealTrainMissed rows = none := by
  constructor
  · simp only [train_all_models, prepare_features, min_data_threshold]
    rw [if_pos h]
    rfl
  · simp only [appRealTrainMissed]
    rw [if_neg (by omega)]

/-- A usable (complete-feature) row for the C8 witness. -/
def c8Row : TRow := { gallons := some 5, traps := some 1, days := some 40, gpt := some 5 }

/-- Witness for `c8_insufficient_data_no_model` at 50 usable records
(spec Scenario E). -/
theorem c8_witness :
    ((List.replicate 50 c8Row).filter trowComplete).length < 100 ∧
    train_all_models (List.replicate 50 c8Row) = none ∧
    appRealTrainMissed (List.replicate 50 c8Row) = none :=
  ⟨by decide,
    (c8_insufficient_data_no_model (List.replicate 50 c8Row) (by decide)).1,
    (c8_insufficient_data_no_model (List.replicate 50 c8Row) (by decide)).2⟩

/-! ## Aggregation (C9) -/

/-- A cleaned record as `get_location_breakdown` consumes it: the area
key is always present after cleaning (missing areas became
`"Unknown"`); gallons may still be NaN. -/
structure AggRow where
  outlet : String
  area : String
  gallons : Option ℚ
deriving DecidableEq, Repr

/-- Pandas column sum: NaN cells contribute nothing (`skipna`). -/
def sumGallons (rows : List AggRow) : ℚ :=
  (rows.map (fun r => r.gallons.getD 0)).sum

/-- The group keys of `groupby('Area')`: the distinct areas in
ascending order (pandas sorts group keys). -/
def areaKeys (rows : List AggRow) : List String :=
  ((rows.map (fun r => r.area)).dedup).insertionSort (· ≤ ·)

/-- `DataFrame.round(2)` on a bucket total: decimal rounding to two
places (the results proved do not depend on the tie-breaking mode of
the float rounding). -/
def round2 (q : ℚ) : ℚ := ((round (100 * q) : ℤ) : ℚ) / 100

/-- The per-bucket gallon totals *before* the final `.round(2)`. -/
def rawBucketTotals (rows : List AggRow) : List (String × ℚ) :=
  (areaKeys rows).map (fun k => (k, sumGallons (rows.filter (fun r => r.area == k))))

/-- `DataProcessor.get_location_breakdown` (data_processor.py:142-150):
group by area, sum the gallons and count distinct outlets per bucket,
round to two decimals. -/
def get_location_breakdown (rows : List AggRow) : List (String × ℚ × ℕ) :=
  (areaKeys rows).map (fun k =>
    (k, round2 (sumGallons (rows.filter (fun r => r.area == k))),
      ((rows.filter (fun r => r.area == k)).map (fun r => r.outlet)).dedup.length))

/-- Concrete record for the C9 counterexample: a fractional gallons
value whose bucket total moves under `.round(2)`. -/
def c9Row : AggRow := { outlet := "O1", area := "A", gallons := some (3/500) }

/-- C9: summed bucket totals are claimed to equal the input total
exactly.  The code rounds each bucket total to two decimals, so a
single record with `gallons = 0.006` yields a reported total of `0.01`,
not `0.006`. -/
theorem c9_counterexample :
    ((get_location_breakdown [c9Row]).map (fun b => b.2.1)).sum = 1/100 ∧
    sumGallons [c9Row] = 3/500 ∧ (1/100 : ℚ) ≠ 3/500 := by
  refine ⟨?_, by norm_num [sumGallons, c9Row], by norm_num⟩
  norm_num [get_location_breakdown, areaKeys, c9Row, round2, sumGallons, round_eq]

/-- Map-sum distributes over pointwise addition. -/
theorem sum_map_add (K : List String) (f g : String → ℚ) :
    (K.map (fun k => f k + g k)).sum = (K.map f).sum + (K.map g).sum := by
  induction K with
  | nil => simp
  | cons a l ih =>
      simp only [List.map_cons, List.sum_cons, ih]
      ring

/-- Over duplicate-free keys containing `a`, the indicator sum picks
out `q` exactly once. -/
theorem sum_map_ite_eq (q : ℚ) :
    ∀ (K : List String) (a : String), K.Nodup → a ∈ K →
      (K.map (fun k => if a = k then q else 0)).sum = q
  | [], a, _, ha => absurd ha (List.not_mem_nil a)
  | k :: K, a, hnod, ha => by
      rcases List.mem_cons.mp ha with rfl | ha'
      · have hnotmem : a ∉ K := (List.nodup_cons.mp hnod).1
        have hz : (K.map (fun x => if a = x then q else 0)).sum = 0 := by
          apply List.sum_eq_zero
          intro x hx
          obtain ⟨k', hk', rfl⟩ := List.mem_map.mp hx
          have hne : a ≠ k' := fun hh => hnotmem (by rw [hh]; exact hk')
          rw [if_neg hne]
        simp only [List.map_cons, List.sum_cons]
        rw [hz, add_zero]
        simp
      · have hk : a ≠ k := by
          rintro rfl
          exact (List.nodup_cons.mp hnod).1 ha'
        simp only [List.map_cons, List.sum_cons, if_neg hk]
        rw [sum_map_ite_eq q K a (List.nodup_cons.mp hnod).2 ha', zero_add]

/-- Partitioning by any duplicate-free key list covering every record's
area conserves the gallons total. -/
theorem bucket_sum_eq (rows : List AggRow) :
    ∀ (K : List String), K.Nodup → (∀ r ∈ rows, r.area ∈ K) →
      (K.map (fun k => sumGallons (rows.filter (fun r => r.area == k)))).sum
        = sumGallons rows := by
  induction rows with
  | nil =>
      intro K _ _
      have hz : (K.map (fun k => sumGallons (List.filter (fun r => r.area == k) []))).sum = 0 := by
        apply List.sum_eq_zero
        intro x hx
        obtain ⟨k, _, rfl⟩ := List.mem_map.mp hx
        simp [sumGallons]
      rw [hz]
      simp [sumGallons]
  | cons r rest ih =>
      intro K hnod hmem
      have hsplit : ∀ k, sumGallons ((r :: rest).filter (fun x => x.area == k))
          = (if r.area = k then r.gallons.getD 0 else 0)
            + sumGallons (rest.filter (fun x => x.area == k)) := by
        intro k
        by_cases h : r.area = k
        · simp [List.filter_cons, h, sumGallons]
        · simp [List.filter_cons, h, sumGallons]
      calc (K.map fun k => sumGallons ((r :: rest).filter (fun x => x.area == k))).sum
          = (K.map fun k => (if r.area = k then r.gallons.getD 0 else 0)
              + sumGallons (rest.filter (fun x => x.area == k))).sum := by
            rw [List.map_congr_left (fun k _ => hsplit k)]
        _ = (K.map fun k => if r.area = k then r.gallons.getD 0 else 0).sum
            + (K.map fun k => sumGallons (rest.filter (fun x => x.area == k))).sum :=
            sum_map_add K _ _
        _ = r.gallons.getD 0 + sumGallons rest := by
            rw [sum_map_ite_eq (r.gallons.getD 0) K r.area hnod
                (hmem r (List.mem_cons_self r rest)),
              ih K hnod (fun x hx => hmem x (List.mem_cons_of_mem _ hx))]
        _ = sumGallons (r :: rest) := by simp [sumGallons]

/-- The sorted distinct keys are duplicate-free. -/
theorem areaKeys_nodup (rows : List AggRow) : (areaKeys rows).Nodup :=
  (List.perm_insertionSort _ _).nodup_iff.mpr (List.nodup_dedup _)

/-- Every record's area occurs among the group keys. -/
theorem areaKeys_mem (rows : List AggRow) (r : AggRow) (hr : r ∈ rows) :
    r.area ∈ areaKeys rows :=
  (List.perm_insertionSort _ _).mem_iff.mpr
    (List.mem_dedup.mpr (List.mem_map_of_mem _ hr))

/-- C9 (amended): the `groupby('Area')` aggregation neither drops nor
double-counts records — the *unrounded* bucket totals sum to exactly
the input gallons total (NaN gallons contribute nothing to either
side, as in pandas).  The code then applies `.round(2)` to each bucket
total, so the reported breakdown conserves the total only up to
rounding (see the counterexample). -/
theorem c9_conservation (rows : List AggRow) :
    ((rawBucketTotals rows).map (fun b => b.2)).sum = sumGallons rows := by
  unfold rawBucketTotals
  rw [List.map_map]
  have hcomp : ((fun b : String × ℚ => b.2)
      ∘ (fun k => (k, sumGallons (rows.filter (fun r => r.area == k)))))
      = fun k => sumGallons (rows.filter (fun r => r.area == k)) := rfl
  rw [hcomp]
  exact bucket_sum_eq rows (areaKeys rows) (areaKeys_nodup rows)
    (fun r hr => areaKeys_mem rows r hr)
